import Mathlib

/-!
Verification of the prompt-to-PDF pipeline (`src/async_prompts_to_pdf.py` and
`src/main.py`): a shallow embedding of the prompt-source reader, the content
generator, the bounded-concurrency orchestrator and the two-phase run
controller, with theorems settling the specification's claims.
-/

set_option autoImplicit false

namespace P2P

/-! ### Python string primitives

Faithful models of the `str` operations the pipeline uses: `splitlines`,
`strip`, `lstrip`, `startswith`.  Python whitespace (for ASCII input) is
space, tab, LF, CR, VT, FF. -/

def pyIsSpace (c : Char) : Bool :=
  c = ' ' || c = '\t' || c = '\n' || c = '\r' || c = Char.ofNat 11 || c = Char.ofNat 12

/-- `str.splitlines` accumulator: a terminator (`\r\n`, `\r` or `\n`) closes the
current line; a trailing unterminated nonempty line is emitted at the end. -/
def pySplitlinesAux (cur : List Char) : List Char → List (List Char)
  | [] => if cur.isEmpty then [] else [cur.reverse]
  | '\r' :: '\n' :: rest => cur.reverse :: pySplitlinesAux [] rest
  | '\r' :: rest => cur.reverse :: pySplitlinesAux [] rest
  | '\n' :: rest => cur.reverse :: pySplitlinesAux [] rest
  | c :: rest => pySplitlinesAux (c :: cur) rest

def pySplitlines (s : String) : List String :=
  (pySplitlinesAux [] s.data).map String.mk

def pyLstrip (s : String) : String :=
  String.mk (s.data.dropWhile pyIsSpace)

def pyStrip (s : String) : String :=
  String.mk (((s.data.dropWhile pyIsSpace).reverse.dropWhile pyIsSpace).reverse)

/-! ### Events

Observable effects of the pipeline, used to state the concurrency-permit,
API-spend, logging and file-system claims. -/

inductive Ev where
  | acquire : Ev
  | release : Ev
  | realCall (prompt : String) : Ev
  | writeFile (path content : String) : Ev
  | deleteFile (path : String) : Ev
  | save (path : String) : Ev
  | reportMissingFile (path : String) : Ev
  | reportUnknownFormat (fmt : String) : Ev
  | logFail (prompt err : String) : Ev
  | exitFail : Ev
  deriving DecidableEq, Repr

def Ev.isRealCall : Ev → Bool
  | .realCall _ => true
  | _ => false

/-! ### Orchestrator (`process_prompts_to_markdown`)

The code keeps the non-blank lines (`ln.strip()` truthy), dispatches one task
per line on `line.lstrip()`, passing header lines (starting `#`) through
without touching the semaphore, and producing either a dry-run placeholder or
the generator's output under the semaphore otherwise. -/

def processLines (text : String) : List String :=
  ((pySplitlines text).filter (fun l => pyStrip l != "")).map pyLstrip

/-- `stripped.startswith("#")` of the source: the first character is the
header marker. -/
def startsWithHash (s : String) : Bool :=
  match s.data with
  | c :: _ => c = '#'
  | [] => false

def dryPlaceholder (s : String) : String :=
  "**Prompt:** " ++ s ++ "\n\n_test placeholder_\n"

/-- One task of the orchestrator (`fetch_markdown` in the source), returning
its result string and the trace of its own effects. -/
def fetch_markdown (dry : Bool) (gen : String → String) (s : String) :
    String × List Ev :=
  if startsWithHash s then (s, [])
  else if dry then (dryPlaceholder s, [.acquire, .release])
  else (gen s, [.acquire, .realCall s, .release])

/-- `process_prompts_to_markdown`: the assembled document (the `"\n\n"`-join of
the per-task results, in submission order, as returned by `asyncio.gather`)
together with the per-task effects in submission order. -/
def process_prompts_to_markdown (text : String) (dry : Bool)
    (gen : String → String) : String × List Ev :=
  let rs := (processLines text).map (fetch_markdown dry gen)
  (String.intercalate "\n\n" (rs.map Prod.fst), (rs.map Prod.snd).flatten)

/-- The list of result blocks (the `pieces` list of the source) before the
final join. -/
def pieces (text : String) (dry : Bool) (gen : String → String) : List String :=
  (processLines text).map (fun s => (fetch_markdown dry gen s).fst)

/-! ### `asyncio.gather` as slot assembly

Each task `i` computes `r i`; completions arrive in an arbitrary order
(a list of task indices); every completion stores its result in slot `i`;
the final list reads the slots `0 … n-1` in index order. -/

def gatherAssemble (n : Nat) (order : List Nat) (r : Nat → String) : List String :=
  order.foldl (fun acc i => acc.set i (r i)) (List.replicate n "")

/-! ### System-override extraction (`extract_system_prompt_and_body`)

The source searches for the regex pattern of a fenced override block —
a case-insensitive opening tag of three backticks followed by the word
"system", optional whitespace, a lazily-matched body, and a closing fence of
three backticks (`re.DOTALL`) — takes the first position at which the whole
pattern matches, strips the captured body, and removes the matched region. -/

def btick : Char := Char.ofNat 96

/-- Split a character list at the first occurrence of three consecutive
backticks: returns the part before the fence and the part after it. -/
def splitAtTripleTick : List Char → Option (List Char × List Char)
  | [] => none
  | c :: rest =>
    if c = btick ∧ rest.take 2 = [btick, btick] then some ([], rest.drop 2)
    else
      match splitAtTripleTick rest with
      | some (a, b) => some (c :: a, b)
      | none => none

/-- If the list starts with the opening tag (three backticks then the word
"system", case-insensitively), return the remainder after the tag. -/
def startsSystemFence : List Char → Option (List Char)
  | a :: b :: c :: d :: e :: f :: g :: h :: i :: rest =>
    if a = btick ∧ b = btick ∧ c = btick ∧
       d.toLower = 's' ∧ e.toLower = 'y' ∧ f.toLower = 's' ∧
       g.toLower = 't' ∧ h.toLower = 'e' ∧ i.toLower = 'm'
    then some rest else none
  | _ => none

/-- Whether the full fence pattern (opening tag with a later closing fence)
matches exactly at the current position. -/
def matchHere (l : List Char) : Option (List Char × List Char) :=
  match startsSystemFence l with
  | some tail => splitAtTripleTick tail
  | none => none

/-- Leftmost regex search: the first position whose opening tag also has a
closing fence wins; the result is (text before the match, captured body
before stripping, text after the match). -/
def searchFence : List Char → Option (List Char × List Char × List Char)
  | [] => none
  | c :: rest =>
    match matchHere (c :: rest) with
    | some (body, after) => some ([], body, after)
    | none =>
      match searchFence rest with
      | some (pre, body, after) => some (c :: pre, body, after)
      | none => none

/-- Whether the full fence pattern matches at position `i` of `l`. -/
def matchAt (l : List Char) (i : Nat) : Option (List Char × List Char) :=
  matchHere (l.drop i)

def pyStripList (l : List Char) : List Char :=
  ((l.dropWhile pyIsSpace).reverse.dropWhile pyIsSpace).reverse

/-- `extract_system_prompt_and_body`: the optional extracted override (the
captured body, stripped — the regex's greedy `\s*` eats exactly whitespace
that the final `strip` would remove anyway) and the text with the matched
region removed. -/
def extract_system_prompt_and_body (text : String) : Option String × String :=
  match searchFence text.data with
  | some (pre, body, after) =>
      (some (String.mk (pyStripList body)), String.mk (pre ++ after))
  | none => (none, text)

/-! ### Semaphore semantics (the concurrency bound)

A small-step model of the orchestrator's task pool: one task per processed
line; a header task finishes without touching the semaphore; a leaf task must
take a permit (`avail` positive) to enter the generator, and releases it when
it finishes.  `max_concurrent_requests` is the configured default. -/

def max_concurrent_requests : Nat := 20

inductive TState where
  | start : TState
  | running : TState
  | done : TState
  deriving DecidableEq, Repr

structure SemState where
  tasks : List TState
  avail : Nat
  deriving DecidableEq, Repr

def isHeaderLine (s : String) : Bool := startsWithHash s

def initState (lines : List String) (limit : Nat) : SemState :=
  ⟨lines.map (fun _ => TState.start), limit⟩

/-- One scheduler step.  `acquire` needs a positive permit count — that is the
`async with semaphore` entry; `release` is its exit; a header task completes
without acquiring. -/
inductive SemStep (lines : List String) : SemState → SemState → Prop
  | headerDone (i : Nat) (s : SemState) (hi : i < s.tasks.length)
      (ht : s.tasks.getD i TState.done = TState.start)
      (hh : isHeaderLine (lines.getD i "") = true) :
      SemStep lines s ⟨s.tasks.set i TState.done, s.avail⟩
  | acquire (i : Nat) (s : SemState) (hi : i < s.tasks.length)
      (ht : s.tasks.getD i TState.done = TState.start)
      (hh : isHeaderLine (lines.getD i "") = false)
      (v : Nat) (hv : s.avail = v + 1) :
      SemStep lines s ⟨s.tasks.set i TState.running, v⟩
  | release (i : Nat) (s : SemState) (hi : i < s.tasks.length)
      (ht : s.tasks.getD i TState.done = TState.running) :
      SemStep lines s ⟨s.tasks.set i TState.done, s.avail + 1⟩

def Reach (lines : List String) (limit : Nat) : SemState → Prop :=
  Relation.ReflTransGen (SemStep lines) (initState lines limit)

/-- Number of generation calls currently executing. -/
def runningCount (s : SemState) : Nat :=
  s.tasks.countP (fun t => t == TState.running)

/-! ### Section structure (modelled from the spec)

Modelled from the spec: "a structural marker closes the current block: the
orchestrator accumulates leaf results into a running block, and upon
encountering the next header (or end of input) emits the accumulated block as
one output unit before starting a new block".  `f` maps a leaf prompt to its
result block.  This is the comparison point for the refinement claim that the
code's flat output has its section boundaries exactly at the header lines. -/

def specSectionsAux (f : String → String) (cur : List String) :
    List String → List (List String)
  | [] => if cur.isEmpty then [] else [cur.reverse]
  | s :: rest =>
    if startsWithHash s then
      if cur.isEmpty then specSectionsAux f [s] rest
      else cur.reverse :: specSectionsAux f [s] rest
    else specSectionsAux f (f s :: cur) rest

def specSections (f : String → String) (lines : List String) : List (List String) :=
  specSectionsAux f [] lines

/-! ### Content generator (`generate_markdown_from_prompt`)

The underlying API call is an oracle `api : String → Except String String`
(`.error e` models a raised exception `e`).  On success the generator returns
the separator-wrapped snippet; on any exception it logs the prompt and the
error and returns the fallback fragment. -/

def separator : String := "\n\n===========================\n\n"

def successFragment (p out : String) : String :=
  separator ++ "**Prompt:** " ++ p ++ "\n\n" ++ pyStrip out

def fallbackFragment (p : String) : String :=
  "**Prompt:** " ++ p ++ "\n\n*Error generating content.*"

def generate_markdown_from_prompt (api : String → Except String String)
    (p : String) : String × List Ev :=
  match api p with
  | .ok out => (successFragment p out, [])
  | .error e => (fallbackFragment p, [.logFail p e])

/-- The generator as the orchestrator's leaf function. -/
def apiGen (api : String → Except String String) : String → String :=
  fun s => (generate_markdown_from_prompt api s).fst

/-! ### File system and the run controller (`main` of `async_prompts_to_pdf.py`)

The file system is an association list from path to content; only write and
delete events touch it.  `fileTrace` is the event trace of processing one
prompt file: system-override extraction, dry run, write-then-delete of the
throwaway sample, real run, then the output-format dispatch — an unknown
format is reported and exits with status 1 (the `Bool` marks the exit). -/

def FS : Type := List (String × String)

def fsFind (fs : FS) (p : String) : Option String :=
  (fs.find? (fun kv => kv.fst == p)).map Prod.snd

def fsWrite (fs : FS) (p c : String) : FS :=
  (p, c) :: fs.filter (fun kv => kv.fst != p)

def fsErase (fs : FS) (p : String) : FS :=
  fs.filter (fun kv => kv.fst != p)

def applyEv (fs : FS) : Ev → FS
  | .writeFile p c => fsWrite fs p c
  | .deleteFile p => fsErase fs p
  | _ => fs

def applyTrace (fs : FS) (tr : List Ev) : FS := tr.foldl applyEv fs

/-- `output_dir / f"{stem}_dry.md"` (path-stem computation abstracted into the
given stem). -/
def samplePath (stem : String) : String := "results/" ++ stem ++ "_dry.md"

def outPath (stem fmt : String) : String := "results/" ++ stem ++ "." ++ fmt

def fileTrace (fmt : String) (gen : String → String) (stem content : String) :
    List Ev × Bool :=
  let body := (extract_system_prompt_and_body content).snd
  let dry := process_prompts_to_markdown body true gen
  let real := process_prompts_to_markdown body false gen
  let base := dry.snd
    ++ [Ev.writeFile (samplePath stem) (dry.fst.take 2000),
        Ev.deleteFile (samplePath stem)]
    ++ real.snd
  if fmt = "pdf" ∨ fmt = "docx" ∨ fmt = "epub"
  then (base ++ [Ev.save (outPath stem fmt)], false)
  else (base ++ [Ev.reportUnknownFormat fmt, Ev.exitFail], true)

/-- The loop of `main` over `prompts_filenames`: a missing file is reported and
skipped (`continue`); `sys.exit(1)` truncates the run. -/
def runFiles (fmt : String) (gen : String → String) (stem : String → String)
    (fs : FS) : List String → List Ev
  | [] => []
  | f :: rest =>
    match fsFind fs f with
    | none => Ev.reportMissingFile f :: runFiles fmt gen stem fs rest
    | some content =>
      let t := fileTrace fmt gen (stem f) content
      if t.snd then t.fst else t.fst ++ runFiles fmt gen stem fs rest

/-- Did a real generation call happen before an exit event? -/
def spendThenExit : List Ev → Bool
  | [] => false
  | Ev.realCall _ :: rest => rest.contains Ev.exitFail || spendThenExit rest
  | _ :: rest => spendThenExit rest

/-! ### The YAML pipeline (`src/main.py`)

`generate_markdown_from_node` walks a parsed YAML tree: mapping keys become
headings of depth `depth + 1`, sequences recurse at the same depth, scalar
leaves are sent to the API, with a catch-and-log fallback of the bare node
text.  `load_yaml_file` exits with status 1 on any load failure. -/

inductive YamlNode where
  | scalar (s : String) : YamlNode
  | seq (items : List YamlNode) : YamlNode
  | map (entries : List (String × YamlNode)) : YamlNode

def repeatHash (n : Nat) : String := String.mk (List.replicate n '#')

mutual

def generate_markdown_from_node (api : String → Except String String) :
    YamlNode → Nat → String × List Ev
  | .scalar s, _ =>
    (match api s with
     | .ok out => ("Prompt: " ++ s ++ "\n\n" ++ pyStrip out ++ "\n\n---\n\n",
                   [Ev.realCall s])
     | .error e => (s ++ "\n\n---\n\n", [Ev.realCall s, Ev.logFail s e]))
  | .seq items, depth => genNodes api items depth
  | .map entries, depth => genEntries api entries depth

def genNodes (api : String → Except String String) :
    List YamlNode → Nat → String × List Ev
  | [], _ => ("", [])
  | n :: rest, depth =>
    let a := generate_markdown_from_node api n depth
    let b := genNodes api rest depth
    (a.fst ++ b.fst, a.snd ++ b.snd)

def genEntries (api : String → Except String String) :
    List (String × YamlNode) → Nat → String × List Ev
  | [], _ => ("", [])
  | (k, v) :: rest, depth =>
    let a := generate_markdown_from_node api v (depth + 1)
    let b := genEntries api rest depth
    (repeatHash (depth + 1) ++ " " ++ k ++ "\n" ++ a.fst ++ b.fst,
     a.snd ++ b.snd)

end

/-- `load_yaml_file`: any exception while opening or parsing is reported and
the process exits with status 1. -/
def load_yaml_file (fs : FS) (parse : String → Except String YamlNode)
    (path : String) : Option YamlNode × List Ev :=
  match fsFind fs path with
  | none => (none, [Ev.reportMissingFile path, Ev.exitFail])
  | some c =>
    match parse c with
    | .ok y => (some y, [])
    | .error _ => (none, [Ev.reportMissingFile path, Ev.exitFail])

def topEntries : YamlNode → List (String × YamlNode)
  | .map es => es
  | _ => []

/-- Event trace of `main` in `src/main.py` (the input file's top level is a
mapping, as the loop over `data.items()` requires). -/
def main_py_trace (api : String → Except String String)
    (parse : String → Except String YamlNode) (fs : FS)
    (inputPath outputPath : String) : List Ev :=
  match load_yaml_file fs parse inputPath with
  | (none, evs) => evs
  | (some y, _) =>
    ((topEntries y).map (fun kv => (generate_markdown_from_node api kv.snd 1).snd)).flatten
      ++ [Ev.save outputPath]

/-- The orchestrator's result, reassembled from completions arriving in a given
order: each completion fills its own slot. -/
def process_with_completion_order (text : String) (dry : Bool)
    (gen : String → String) (order : List Nat) : List String :=
  let ls := processLines text
  gatherAssemble ls.length order
    (fun i => (fetch_markdown dry gen (ls.getD i "")).fst)

/-! ### Lemmas -/

theorem gatherFold_length (r : Nat → String) (order : List Nat) :
    ∀ acc : List String,
      (order.foldl (fun a i => a.set i (r i)) acc).length = acc.length := by
  induction order with
  | nil => intro acc; rfl
  | cons j rest ih =>
    intro acc
    simpa [List.foldl_cons] using ih (acc.set j (r j))

theorem gatherFold_getElem? (r : Nat → String) (order : List Nat) :
    ∀ (acc : List String) (i : Nat),
      (order.foldl (fun a k => a.set k (r k)) acc)[i]? =
        if i ∈ order ∧ i < acc.length then some (r i) else acc[i]? := by
  induction order with
  | nil => intro acc i; simp
  | cons j rest ih =>
    intro acc i
    rw [List.foldl_cons, ih (acc.set j (r j)) i, List.length_set]
    by_cases hj : i = j
    · subst hj
      by_cases hlen : i < acc.length
      · by_cases hmem : i ∈ rest <;>
          simp [hmem, hlen, List.getElem?_set, List.mem_cons]
      · by_cases hmem : i ∈ rest <;>
          simp [hmem, hlen, List.getElem?_set, List.mem_cons,
                List.getElem?_eq_none (Nat.le_of_not_lt hlen)]
    · have : (i ∈ j :: rest) = (i ∈ rest) := by
        simp [List.mem_cons, hj]
      by_cases hmem : i ∈ rest <;>
        simp [hmem, hj, this, List.getElem?_set_ne (fun h => hj h.symm)]

theorem gatherAssemble_eq (n : Nat) (order : List Nat) (r : Nat → String)
    (h : ∀ i, i < n → i ∈ order) :
    gatherAssemble n order r = (List.range n).map r := by
  apply List.ext_getElem?
  intro i
  rw [gatherAssemble, gatherFold_getElem?, List.length_replicate]
  by_cases hi : i < n
  · simp [hi, h i hi]
  · simp [hi, List.getElem?_eq_none (l := List.replicate n "")
      (by simpa using Nat.le_of_not_lt hi),
      List.getElem?_eq_none (l := (List.range n).map r)
      (by simpa using Nat.le_of_not_lt hi)]

theorem pieces_eq_map (text : String) (dry : Bool) (gen : String → String) :
    pieces text dry gen =
      (List.range (processLines text).length).map
        (fun i => (fetch_markdown dry gen ((processLines text).getD i "")).fst) := by
  apply List.ext_getElem?
  intro i
  rw [pieces, List.getElem?_map, List.getElem?_map]
  by_cases hi : i < (processLines text).length
  · rw [List.getElem?_eq_getElem hi,
      List.getElem?_eq_getElem (by simpa using hi : i < (List.range _).length)]
    simp [List.getD_eq_getElem?_getD, List.getElem?_eq_getElem hi]
  · rw [List.getElem?_eq_none (Nat.le_of_not_lt hi),
      List.getElem?_eq_none (by simpa using Nat.le_of_not_lt hi)]
    rfl

/-! ### C1 -/

/-- C1: for every flat prompt text and every completion order of the
generation tasks (any arrival sequence that completes every task), the
assembled block list equals the submission-order block list: the i-th block is
the i-th non-blank input line itself when it is a header, and that line's
generation result otherwise. -/
theorem claim_C1_order_preservation (text : String) (gen : String → String)
    (order : List Nat)
    (hall : ∀ i, i < (processLines text).length → i ∈ order) :
    process_with_completion_order text false gen order = pieces text false gen
    ∧ ∀ i, i < (processLines text).length →
        (pieces text false gen)[i]? =
          some (if startsWithHash ((processLines text).getD i "")
                then (processLines text).getD i ""
                else gen ((processLines text).getD i "")) := by
  constructor
  · rw [process_with_completion_order, pieces_eq_map,
      gatherAssemble_eq _ _ _ hall]
  · intro i hi
    rw [pieces, List.getElem?_map, List.getElem?_eq_getElem hi,
      List.getD_eq_getElem?_getD, List.getElem?_eq_getElem hi]
    by_cases hh : startsWithHash ((processLines text)[i]) = true <;>
      simp [fetch_markdown, hh]

/-- Witness for C1: three lines with a header, completions arriving in
reverse order. -/
theorem claim_C1_order_preservation_witness :
    (∀ i, i < (processLines "# H\nalpha\nbeta").length → i ∈ [2, 1, 0])
    ∧ (process_with_completion_order "# H\nalpha\nbeta" false
          (fun s => "G:" ++ s) [2, 1, 0]
        = pieces "# H\nalpha\nbeta" false (fun s => "G:" ++ s)
      ∧ ∀ i, i < (processLines "# H\nalpha\nbeta").length →
          (pieces "# H\nalpha\nbeta" false (fun s => "G:" ++ s))[i]? =
            some (if startsWithHash ((processLines "# H\nalpha\nbeta").getD i "")
                  then (processLines "# H\nalpha\nbeta").getD i ""
                  else "G:" ++ (processLines "# H\nalpha\nbeta").getD i "")) :=
  ⟨by decide,
   claim_C1_order_preservation "# H\nalpha\nbeta" (fun s => "G:" ++ s)
     [2, 1, 0] (by decide)⟩

/-! ### C2 -/

theorem getD_to_getElem (l : List TState) (i : Nat) (hi : i < l.length)
    (x : TState) (h : l.getD i TState.done = x) : l[i] = x := by
  rw [List.getD_eq_getElem?_getD, List.getElem?_eq_getElem hi] at h
  simpa using h

theorem step_preserves_inv (lines : List String) (limit : Nat)
    (s1 s2 : SemState) (hstep : SemStep lines s1 s2)
    (ih : runningCount s1 + s1.avail = limit) :
    runningCount s2 + s2.avail = limit := by
  cases hstep with
  | headerDone i s0 hi ht hh =>
    have hbi := getD_to_getElem s1.tasks i hi TState.start ht
    have hset := List.countP_set (fun t => t == TState.running) s1.tasks i
      TState.done hi
    rw [hbi] at hset
    simp only [runningCount] at *
    simp only [hset]
    simpa using ih
  | acquire i s0 hi ht hh v hv =>
    have hbi := getD_to_getElem s1.tasks i hi TState.start ht
    have hset := List.countP_set (fun t => t == TState.running) s1.tasks i
      TState.running hi
    rw [hbi] at hset
    simp only [runningCount] at *
    simp only [hset]
    simp only [hv] at ih
    simp
    omega
  | release i s0 hi ht =>
    have hbi := getD_to_getElem s1.tasks i hi TState.running ht
    have hpos : 0 < s1.tasks.countP (fun t => t == TState.running) := by
      rw [List.countP_pos_iff]
      exact ⟨s1.tasks[i], List.getElem_mem hi, by simp [hbi]⟩
    have hset := List.countP_set (fun t => t == TState.running) s1.tasks i
      TState.done hi
    rw [hbi] at hset
    simp only [runningCount] at *
    simp only [hset]
    simp
    omega

theorem runningCount_avail_inv (lines : List String) (limit : Nat)
    (s : SemState) (hs : Reach lines limit s) :
    runningCount s + s.avail = limit := by
  induction hs with
  | refl =>
    simp [runningCount, initState, List.countP_eq_zero]
  | tail _ hstep ih =>
    exact step_preserves_inv lines limit _ _ hstep ih

/-- C2: at no point in any run of the orchestrator's task pool do more than
`limit` generation calls execute simultaneously (the permit count plus the
executing calls is conserved); when no permit is available no new generation
call can start; and the configured default limit is 20. -/
theorem claim_C2_concurrency_bound (lines : List String) (limit : Nat)
    (s : SemState) (hs : Reach lines limit s) :
    runningCount s ≤ limit
    ∧ runningCount s + s.avail = limit
    ∧ (∀ s1 s2 : SemState, s1.avail = 0 → SemStep lines s1 s2 →
        runningCount s2 ≤ runningCount s1)
    ∧ max_concurrent_requests = 20 := by
  have hinv := runningCount_avail_inv lines limit s hs
  refine ⟨by omega, hinv, ?_, rfl⟩
  intro s1 s2 h0 hstep
  cases hstep with
  | headerDone i s0 hi ht hh =>
    have hbi := getD_to_getElem s1.tasks i hi TState.start ht
    have hset := List.countP_set (fun t => t == TState.running) s1.tasks i
      TState.done hi
    rw [hbi] at hset
    simp only [runningCount]
    simp only [hset]
    simp
  | acquire i s0 hi ht hh v hv =>
    rw [h0] at hv
    exact absurd hv (by omega)
  | release i s0 hi ht =>
    have hbi := getD_to_getElem s1.tasks i hi TState.running ht
    have hset := List.countP_set (fun t => t == TState.running) s1.tasks i
      TState.done hi
    rw [hbi] at hset
    simp only [runningCount]
    simp only [hset]
    simp
    try omega

/-- Witness for C2: the initial state of a two-line pool with limit 2 is
reachable, and the theorem's conclusions hold there. -/
theorem claim_C2_concurrency_bound_witness :
    runningCount (initState ["# H", "p"] 2) ≤ 2
    ∧ runningCount (initState ["# H", "p"] 2) + (initState ["# H", "p"] 2).avail = 2
    ∧ (∀ s1 s2 : SemState, s1.avail = 0 → SemStep ["# H", "p"] s1 s2 →
        runningCount s2 ≤ runningCount s1)
    ∧ max_concurrent_requests = 20 :=
  claim_C2_concurrency_bound ["# H", "p"] 2 (initState ["# H", "p"] 2)
    Relation.ReflTransGen.refl

/-! ### C3 -/

theorem fetch_markdown_fst (dry : Bool) (gen : String → String) (s : String) :
    (fetch_markdown dry gen s).fst =
      if startsWithHash s then s else if dry then dryPlaceholder s else gen s := by
  by_cases hh : startsWithHash s = true <;> by_cases hd : dry = true <;>
    simp_all [fetch_markdown]

theorem specSectionsAux_flatten (f : String → String) :
    ∀ (ls cur : List String),
      (specSectionsAux f cur ls).flatten
        = cur.reverse ++ ls.map (fun s => if startsWithHash s then s else f s) := by
  intro ls
  induction ls with
  | nil =>
    intro cur
    by_cases hc : cur.isEmpty <;>
      simp_all [specSectionsAux, List.isEmpty_iff]
  | cons s rest ih =>
    intro cur
    by_cases hh : startsWithHash s = true
    · by_cases hc : cur.isEmpty
      · rw [List.isEmpty_iff] at hc
        subst hc
        simp [specSectionsAux, hh, ih]
      · simp [specSectionsAux, hh, hc, ih]
    · simp [specSectionsAux, hh, ih]

/-- C3: the orchestrator's block list is exactly the flattening of the
section structure described by the spec — accumulate leaf results, close the
running block at each header — so section boundaries fall exactly at the
header lines; and on the spec's example input with two headers (stub
generator), the structure is exactly two sections, each a header followed by
its answered prompts in order. -/
theorem claim_C3_header_sections (text : String) (gen : String → String) :
    (specSections gen (processLines text)).flatten = pieces text false gen
    ∧ specSections (fun s => "<ANSWER to: " ++ s ++ ">")
        (processLines "# Intro\nWhat is X?\nWhy does X matter?\n# Outro\nSummarize.")
      = [["# Intro", "<ANSWER to: What is X?>", "<ANSWER to: Why does X matter?>"],
         ["# Outro", "<ANSWER to: Summarize.>"]] := by
  constructor
  · rw [specSections, specSectionsAux_flatten, pieces]
    simp [fetch_markdown_fst]
  · decide

/-! ### C7 -/

/-- C7: a dispatched line beginning with the header marker is returned
verbatim with an empty effect trace — in particular it never acquires the
concurrency permit and never reaches the generator — and it appears verbatim
as its block of the assembled list. -/
theorem claim_C7_header_passthrough (dry : Bool) (gen : String → String)
    (s : String) (hs : startsWithHash s = true) :
    fetch_markdown dry gen s = (s, [])
    ∧ Ev.acquire ∉ (fetch_markdown dry gen s).snd
    ∧ (∀ p, Ev.realCall p ∉ (fetch_markdown dry gen s).snd)
    ∧ (∀ (text : String) (i : Nat), (processLines text)[i]? = some s →
        (pieces text dry gen)[i]? = some s) := by
  have hfe : fetch_markdown dry gen s = (s, []) := by
    simp [fetch_markdown, hs]
  refine ⟨hfe, by simp [hfe], fun p => by simp [hfe], ?_⟩
  intro text i hi
  rw [pieces, List.getElem?_map, hi]
  simp [hfe]

/-- Witness for C7 at the header line of a concrete two-line prompt text. -/
theorem claim_C7_header_passthrough_witness :
    (startsWithHash "# Intro" = true)
    ∧ fetch_markdown false (fun s => "G:" ++ s) "# Intro" = ("# Intro", [])
    ∧ (processLines "# Intro\nquestion")[0]? = some "# Intro"
    ∧ (pieces "# Intro\nquestion" false (fun s => "G:" ++ s))[0]? = some "# Intro" :=
  ⟨by decide,
   (claim_C7_header_passthrough false (fun s => "G:" ++ s) "# Intro" (by decide)).1,
   by decide,
   (claim_C7_header_passthrough false (fun s => "G:" ++ s) "# Intro"
      (by decide)).2.2.2 "# Intro\nquestion" 0 (by decide)⟩

/-! ### C10 -/

theorem pyLstrip_head (l : String) (h : pyStrip l ≠ "") :
    ∃ c rest2, (pyLstrip l).data = c :: rest2 ∧ pyIsSpace c = false := by
  rw [pyLstrip]
  have hne : l.data.dropWhile pyIsSpace ≠ [] := by
    intro hnil
    apply h
    rw [pyStrip, hnil]
    rfl
  cases hd : l.data.dropWhile pyIsSpace with
  | nil => exact absurd hd hne
  | cons c rest2 =>
    refine ⟨c, rest2, by simp [hd], ?_⟩
    have := List.dropWhile_get_zero_not pyIsSpace l.data (by rw [hd]; simp)
    simpa [hd] using this

theorem mem_processLines (text : String) (p : String)
    (hp : p ∈ processLines text) :
    ∃ l ∈ pySplitlines text, pyStrip l ≠ "" ∧ p = pyLstrip l := by
  rw [processLines, List.mem_map] at hp
  obtain ⟨l, hl, rfl⟩ := hp
  rw [List.mem_filter] at hl
  exact ⟨l, hl.1, by simpa using hl.2, rfl⟩

theorem realCall_mem_events (dry : Bool) (gen : String → String)
    (text : String) (p : String)
    (hp : Ev.realCall p ∈ (process_prompts_to_markdown text dry gen).snd) :
    p ∈ processLines text ∧ dry = false := by
  rw [process_prompts_to_markdown] at hp
  simp only [List.mem_flatten, List.map_map, List.mem_map] at hp
  obtain ⟨evs, ⟨s, hsmem, rfl⟩, hin⟩ := hp
  by_cases hh : startsWithHash s = true
  · simp [fetch_markdown, hh] at hin
  · by_cases hd : dry = true
    · simp [fetch_markdown, hh, hd] at hin
    · rw [Bool.not_eq_true] at hd
      subst hd
      simp only [Function.comp_apply] at hin
      simp [fetch_markdown, hh] at hin
      exact ⟨hin ▸ hsmem, rfl⟩

/-- C10: every dispatched line is left-stripped first — an indented header is
still recognized (and reproduced verbatim), every dispatched line is in
left-stripped form with a non-whitespace first character, and in particular
every prompt handed to the generator starts with a non-whitespace
character. -/
theorem claim_C10_lstrip_dispatch (text : String) (dry : Bool)
    (gen : String → String) :
    (∀ l, pyStrip l ≠ "" → startsWithHash (pyLstrip l) = true →
        fetch_markdown dry gen (pyLstrip l) = (pyLstrip l, []))
    ∧ (∀ s ∈ processLines text,
        ∃ c rest2, s.data = c :: rest2 ∧ pyIsSpace c = false)
    ∧ (∀ p, Ev.realCall p ∈ (process_prompts_to_markdown text dry gen).snd →
        (∃ l ∈ pySplitlines text, pyStrip l ≠ "" ∧ p = pyLstrip l)
        ∧ ∃ c rest2, p.data = c :: rest2 ∧ pyIsSpace c = false) := by
  refine ⟨?_, ?_, ?_⟩
  · intro l _ hh
    simp [fetch_markdown, hh]
  · intro s hs
    obtain ⟨l, _, hne, rfl⟩ := mem_processLines text s hs
    exact pyLstrip_head l hne
  · intro p hp
    have hmem := (realCall_mem_events dry gen text p hp).1
    obtain ⟨l, hl, hne, hpl⟩ := mem_processLines text p hmem
    exact ⟨⟨l, hl, hne, hpl⟩, hpl ▸ pyLstrip_head l hne⟩

/-- Witness for C10: an indented header line and an indented prompt. -/
theorem claim_C10_lstrip_dispatch_witness :
    (pyStrip "   # Indented" ≠ "" ∧ startsWithHash (pyLstrip "   # Indented") = true
      ∧ fetch_markdown false (fun s => "G:" ++ s) (pyLstrip "   # Indented")
          = (pyLstrip "   # Indented", []))
    ∧ ("What" ∈ processLines "   # Indented\n  What"
      ∧ ∃ c rest2, "What".data = c :: rest2 ∧ pyIsSpace c = false) := by
  have h := claim_C10_lstrip_dispatch "   # Indented\n  What" false
    (fun s => "G:" ++ s)
  refine ⟨⟨by decide, by decide, h.1 "   # Indented" (by decide) (by decide)⟩,
    by decide, h.2.1 "What" (by decide)⟩

/-! ### C5 -/

/-- C5: on any exception from the API call the generator catches it, logs the
prompt text with the error, and returns the fallback fragment; consequently a
failure at prompt `k` of an all-prompt input leaves the assembled list at full
length, with block `k` in fallback form and every successfully generated
block in its success form. -/
theorem claim_C5_failure_isolation (text : String)
    (api : String → Except String String) (k : Nat) (pk e : String)
    (hall : ∀ l ∈ processLines text, startsWithHash l = false)
    (hk : (processLines text)[k]? = some pk)
    (he : api pk = Except.error e) :
    generate_markdown_from_prompt api pk = (fallbackFragment pk, [Ev.logFail pk e])
    ∧ (pieces text false (apiGen api)).length = (processLines text).length
    ∧ (pieces text false (apiGen api))[k]? = some (fallbackFragment pk)
    ∧ ∀ (j : Nat) (pj rj : String), (processLines text)[j]? = some pj → api pj = Except.ok rj →
        (pieces text false (apiGen api))[j]? = some (successFragment pj rj) := by
  have hgen : generate_markdown_from_prompt api pk
      = (fallbackFragment pk, [Ev.logFail pk e]) := by
    rw [generate_markdown_from_prompt, he]
  refine ⟨hgen, by simp [pieces], ?_, ?_⟩
  · have hmem : pk ∈ processLines text := by
      have := List.getElem?_mem hk
      exact this
    rw [pieces, List.getElem?_map, hk]
    simp [fetch_markdown, hall pk hmem, apiGen, hgen]
  · intro j pj rj hj hok
    have hmem : pj ∈ processLines text := List.getElem?_mem hj
    rw [pieces, List.getElem?_map, hj]
    simp [fetch_markdown, hall pj hmem, apiGen,
      generate_markdown_from_prompt, hok]

/-- Witness for C5: three prompts, the API failing on the second. -/
theorem claim_C5_failure_isolation_witness :
    (∀ l ∈ processLines "alpha\nbeta\ngamma", startsWithHash l = false)
    ∧ (processLines "alpha\nbeta\ngamma")[1]? = some "beta"
    ∧ (fun s => if s = "beta" then Except.error "boom"
         else Except.ok ("out " ++ s)) "beta"
        = (Except.error "boom" : Except String String)
    ∧ (generate_markdown_from_prompt
        (fun s => if s = "beta" then Except.error "boom"
          else Except.ok ("out " ++ s)) "beta"
        = (fallbackFragment "beta", [Ev.logFail "beta" "boom"])
      ∧ (pieces "alpha\nbeta\ngamma" false
          (apiGen (fun s => if s = "beta" then Except.error "boom"
            else Except.ok ("out " ++ s)))).length
        = (processLines "alpha\nbeta\ngamma").length
      ∧ (pieces "alpha\nbeta\ngamma" false
          (apiGen (fun s => if s = "beta" then Except.error "boom"
            else Except.ok ("out " ++ s))))[1]?
        = some (fallbackFragment "beta")
      ∧ ∀ (j : Nat) (pj rj : String), (processLines "alpha\nbeta\ngamma")[j]? = some pj →
          (fun s => if s = "beta" then Except.error "boom"
            else Except.ok ("out " ++ s)) pj = Except.ok rj →
          (pieces "alpha\nbeta\ngamma" false
            (apiGen (fun s => if s = "beta" then Except.error "boom"
              else Except.ok ("out " ++ s))))[j]?
          = some (successFragment pj rj)) :=
  ⟨by decide, by decide, rfl,
   claim_C5_failure_isolation "alpha\nbeta\ngamma"
     (fun s => if s = "beta" then Except.error "boom"
       else Except.ok ("out " ++ s)) 1 "beta" "boom"
     (by decide) (by decide) rfl⟩

/-! ### C4 -/

/-- The dry-run phase of one file's run: the dry orchestrator pass followed by
writing and then deleting the throwaway sample. -/
def dryPhaseTrace (gen : String → String) (stem content : String) : List Ev :=
  (process_prompts_to_markdown (extract_system_prompt_and_body content).snd
      true gen).snd
    ++ [Ev.writeFile (samplePath stem)
          ((process_prompts_to_markdown
              (extract_system_prompt_and_body content).snd true gen).fst.take 2000),
        Ev.deleteFile (samplePath stem)]

theorem fsFind_erase (fs : FS) (p : String) : fsFind (fsErase fs p) p = none := by
  rw [fsFind]
  have hnone : (fsErase fs p).find? (fun kv => kv.fst == p) = none := by
    rw [List.find?_eq_none]
    intro kv hkv
    rw [fsErase, List.mem_filter] at hkv
    simpa using hkv.2
  rw [hnone]
  rfl

theorem dry_events_no_realCall (gen : String → String) (text : String) :
    ∀ e ∈ (process_prompts_to_markdown text true gen).snd,
      Ev.isRealCall e = false := by
  intro e he
  cases e with
  | realCall p =>
    have := (realCall_mem_events true gen text p he).2
    exact absurd this (by simp)
  | _ => rfl

/-- C4: in dry-run mode the real generation path is never entered (the dry
phase's event trace contains no real-call event); every non-header line
resolves to the fixed placeholder fragment; after the dry phase no trace of
the throwaway sample remains on any file system; and in the full per-file
trace the dry phase — ending with the sample's deletion — precedes everything
else, so the sample is deleted before the real run begins. -/
theorem claim_C4_dry_run (fmt : String) (gen : String → String)
    (stem content : String) (fs : FS) :
    ((process_prompts_to_markdown (extract_system_prompt_and_body content).snd
        true gen).snd).filter Ev.isRealCall = []
    ∧ (∀ s ∈ processLines (extract_system_prompt_and_body content).snd,
        startsWithHash s = false → (fetch_markdown true gen s).fst = dryPlaceholder s)
    ∧ fsFind (applyTrace fs (dryPhaseTrace gen stem content)) (samplePath stem)
        = none
    ∧ ∃ rest, (fileTrace fmt gen stem content).fst
          = dryPhaseTrace gen stem content ++ rest
        ∧ ∀ e ∈ dryPhaseTrace gen stem content, Ev.isRealCall e = false := by
  refine ⟨?_, ?_, ?_, ?_⟩
  · rw [List.filter_eq_nil_iff]
    intro e he
    simp [dry_events_no_realCall gen _ e he]
  · intro s _ hh
    simp [fetch_markdown, hh]
  · rw [dryPhaseTrace, applyTrace, List.foldl_append]
    exact fsFind_erase _ _
  · refine ⟨(process_prompts_to_markdown
        (extract_system_prompt_and_body content).snd false gen).snd
        ++ (if fmt = "pdf" ∨ fmt = "docx" ∨ fmt = "epub"
            then [Ev.save (outPath stem fmt)]
            else [Ev.reportUnknownFormat fmt, Ev.exitFail]), ?_, ?_⟩
    · rw [fileTrace, dryPhaseTrace]
      by_cases hf : fmt = "pdf" ∨ fmt = "docx" ∨ fmt = "epub" <;>
        simp [hf]
    · intro e he
      rw [dryPhaseTrace, List.mem_append] at he
      rcases he with h1 | h2
      · exact dry_events_no_realCall gen _ e h1
      · simp only [List.mem_cons, List.not_mem_nil, or_false] at h2
        rcases h2 with h | h
        · rw [h]; rfl
        · rw [h]; rfl

/-- Witness for C4 on a concrete file with one header and one prompt. -/
theorem claim_C4_dry_run_witness :
    (((process_prompts_to_markdown
        (extract_system_prompt_and_body "# H\nquestion").snd
        true (fun s => "G:" ++ s)).snd).filter Ev.isRealCall = []
      ∧ fsFind (applyTrace [("other.txt", "x")]
          (dryPhaseTrace (fun s => "G:" ++ s) "p" "# H\nquestion"))
          (samplePath "p") = none)
    ∧ ("question" ∈ processLines (extract_system_prompt_and_body "# H\nquestion").snd
      ∧ startsWithHash "question" = false
      ∧ (fetch_markdown true (fun s => "G:" ++ s) "question").fst
          = dryPlaceholder "question") := by
  have h := claim_C4_dry_run "pdf" (fun s => "G:" ++ s) "p" "# H\nquestion"
    [("other.txt", "x")]
  exact ⟨⟨h.1, h.2.2.1⟩, by decide, by decide,
    h.2.1 "question" (by decide) (by decide)⟩

/-! ### C8 -/

theorem realCall_in_events (gen : String → String) (text s : String)
    (hs : s ∈ processLines text) (hh : startsWithHash s = false) :
    Ev.realCall s ∈ (process_prompts_to_markdown text false gen).snd := by
  rw [process_prompts_to_markdown]
  simp only [List.map_map, List.mem_flatten, List.mem_map]
  exact ⟨(fetch_markdown false gen s).snd, ⟨s, hs, rfl⟩,
    by simp [fetch_markdown, hh]⟩

/-- Counterexample for C8: with the unknown output format "xyz" and a readable
one-prompt file, a real generation call is issued before the non-zero exit —
the format check happens only at serialization time, after the real run. -/
theorem claim_C8_counterexample :
    spendThenExit (runFiles "xyz" (fun s => "GEN " ++ s) (fun _ => "p")
      [("p.txt", "hello")] ["p.txt"]) = true := by
  decide

/-- C8 amended: an unrecognized output-format selector is reported and the
process exits with a non-zero status, but only at the serialization step —
after the dry run and after the real generation run of the current file have
completed, i.e. after API spend: every non-header prompt's real call appears
in the trace that ends with the report and the exit. -/
theorem claim_C8_amended (fmt : String) (gen : String → String)
    (stem : String → String) (fs : FS) (f content : String)
    (hfmt : ¬(fmt = "pdf" ∨ fmt = "docx" ∨ fmt = "epub"))
    (hfs : fsFind fs f = some content) :
    runFiles fmt gen stem fs [f]
      = (process_prompts_to_markdown
            (extract_system_prompt_and_body content).snd true gen).snd
        ++ [Ev.writeFile (samplePath (stem f))
              ((process_prompts_to_markdown
                  (extract_system_prompt_and_body content).snd true gen).fst.take 2000),
            Ev.deleteFile (samplePath (stem f))]
        ++ ((process_prompts_to_markdown
              (extract_system_prompt_and_body content).snd false gen).snd
            ++ [Ev.reportUnknownFormat fmt, Ev.exitFail])
    ∧ ∀ s ∈ processLines (extract_system_prompt_and_body content).snd,
        startsWithHash s = false →
          Ev.realCall s ∈ runFiles fmt gen stem fs [f] := by
  have htr : runFiles fmt gen stem fs [f]
      = (process_prompts_to_markdown
            (extract_system_prompt_and_body content).snd true gen).snd
        ++ [Ev.writeFile (samplePath (stem f))
              ((process_prompts_to_markdown
                  (extract_system_prompt_and_body content).snd true gen).fst.take 2000),
            Ev.deleteFile (samplePath (stem f))]
        ++ ((process_prompts_to_markdown
              (extract_system_prompt_and_body content).snd false gen).snd
            ++ [Ev.reportUnknownFormat fmt, Ev.exitFail]) := by
    simp [runFiles, hfs, fileTrace, hfmt]
  refine ⟨htr, ?_⟩
  intro s hs hh
  rw [htr]
  have := realCall_in_events gen _ s hs hh
  simp only [List.mem_append]
  right
  left
  exact this

/-- Witness for C8's amended statement at a concrete configuration. -/
theorem claim_C8_amended_witness :
    (¬("xyz" = "pdf" ∨ "xyz" = "docx" ∨ "xyz" = "epub")
      ∧ fsFind [("p.txt", "hello")] "p.txt" = some "hello")
    ∧ ("hello" ∈ processLines (extract_system_prompt_and_body "hello").snd
      ∧ Ev.realCall "hello" ∈ runFiles "xyz" (fun s => "GEN " ++ s) (fun _ => "p")
          [("p.txt", "hello")] ["p.txt"]) :=
  ⟨⟨by decide, by decide⟩, by decide,
   (claim_C8_amended "xyz" (fun s => "GEN " ++ s) (fun _ => "p")
       [("p.txt", "hello")] "p.txt" "hello" (by decide) (by decide)).2
     "hello" (by decide) (by decide)⟩

/-! ### C9 -/

/-- Counterexample for C9: in the flat-file pipeline a missing prompt file is
only reported and skipped — the run's trace contains no exit event at all, so
the process does not exit with a non-zero status. -/
theorem claim_C9_counterexample :
    runFiles "pdf" (fun _ => "G") (fun f => f) [] ["missing.txt"]
      = [Ev.reportMissingFile "missing.txt"]
    ∧ Ev.exitFail ∉ runFiles "pdf" (fun _ => "G") (fun f => f) [] ["missing.txt"] := by
  constructor
  · decide
  · decide

/-- C9 amended: in the YAML pipeline (`main.py`) a missing prompt source —
and likewise one that fails to load or parse — is reported and the process
exits with a non-zero status before any API spend; in the flat-file pipeline
(`async_prompts_to_pdf.py`) a missing prompt file (the only failure its
`except FileNotFoundError` catches) is reported and skipped with `continue`,
costing no API spend for that file and causing no exit on that account. -/
theorem claim_C9_amended (api : String → Except String String)
    (parse : String → Except String YamlNode) (fs : FS)
    (inputPath outputPath fmt : String) (gen : String → String)
    (stem : String → String) (files : List String)
    (hmiss : fsFind fs inputPath = none) :
    main_py_trace api parse fs inputPath outputPath
      = [Ev.reportMissingFile inputPath, Ev.exitFail]
    ∧ (∀ p, Ev.realCall p ∉ main_py_trace api parse fs inputPath outputPath)
    ∧ (∀ (fs2 : FS) (path2 content e : String),
        fsFind fs2 path2 = some content → parse content = Except.error e →
          main_py_trace api parse fs2 path2 outputPath
            = [Ev.reportMissingFile path2, Ev.exitFail]
          ∧ ∀ p, Ev.realCall p ∉ main_py_trace api parse fs2 path2 outputPath)
    ∧ runFiles fmt gen stem fs (inputPath :: files)
        = Ev.reportMissingFile inputPath :: runFiles fmt gen stem fs files := by
  have h1 : main_py_trace api parse fs inputPath outputPath
      = [Ev.reportMissingFile inputPath, Ev.exitFail] := by
    rw [main_py_trace, load_yaml_file, hmiss]
  refine ⟨h1, ?_, ?_, ?_⟩
  · intro p
    rw [h1]
    simp
  · intro fs2 path2 content e hsome hparse
    have h2 : main_py_trace api parse fs2 path2 outputPath
        = [Ev.reportMissingFile path2, Ev.exitFail] := by
      simp [main_py_trace, load_yaml_file, hsome, hparse]
    refine ⟨h2, ?_⟩
    intro p
    rw [h2]
    simp
  · rw [runFiles, hmiss]

/-- Witness for C9's amended statement: a missing YAML source, a present but
unparsable YAML source, and a missing flat prompt file. -/
theorem claim_C9_amended_witness :
    (fsFind [] "missing.yaml" = none
      ∧ fsFind [("bad.yaml", "x")] "bad.yaml" = some "x"
      ∧ (fun _ : String => (Except.error "bad" : Except String YamlNode)) "x"
          = Except.error "bad")
    ∧ (main_py_trace (fun s => Except.ok s)
         (fun _ => (Except.error "bad" : Except String YamlNode))
         [] "missing.yaml" "out.pdf"
        = [Ev.reportMissingFile "missing.yaml", Ev.exitFail]
      ∧ (∀ p, Ev.realCall p ∉ main_py_trace (fun s => Except.ok s)
          (fun _ => (Except.error "bad" : Except String YamlNode))
          [] "missing.yaml" "out.pdf")
      ∧ (main_py_trace (fun s => Except.ok s)
           (fun _ => (Except.error "bad" : Except String YamlNode))
           [("bad.yaml", "x")] "bad.yaml" "out.pdf"
          = [Ev.reportMissingFile "bad.yaml", Ev.exitFail]
        ∧ ∀ p, Ev.realCall p ∉ main_py_trace (fun s => Except.ok s)
            (fun _ => (Except.error "bad" : Except String YamlNode))
            [("bad.yaml", "x")] "bad.yaml" "out.pdf")
      ∧ runFiles "pdf" (fun _ => "G") (fun f => f) [] ["missing.yaml"]
          = Ev.reportMissingFile "missing.yaml"
            :: runFiles "pdf" (fun _ => "G") (fun f => f) [] []) := by
  have h := claim_C9_amended (fun s => Except.ok s)
    (fun _ => (Except.error "bad" : Except String YamlNode))
    [] "missing.yaml" "out.pdf" "pdf" (fun _ => "G") (fun f => f) [] rfl
  exact ⟨⟨rfl, by decide, rfl⟩, h.1, h.2.1,
    h.2.2.1 [("bad.yaml", "x")] "bad.yaml" "x" "bad" (by decide) rfl, h.2.2.2⟩

/-! ### C6 -/

/-- The closing fence. -/
def tripleTick : List Char := [btick, btick, btick]

/-- The opening tag of a fenced override block, in its lower-case form. -/
def sysFenceChars : List Char :=
  [btick, btick, btick, 's', 'y', 's', 't', 'e', 'm']

/-- Whether three consecutive backticks occur anywhere in the list. -/
def containsTriple : List Char → Bool
  | a :: b :: c :: rest =>
    (a = btick && b = btick && c = btick) || containsTriple (b :: c :: rest)
  | _ => false

theorem containsTriple_tail (c : Char) (l : List Char)
    (h : containsTriple l = true) : containsTriple (c :: l) = true := by
  match l with
  | [] => simp [containsTriple] at h
  | [a] => simp [containsTriple] at h
  | a :: b :: rest =>
    rw [containsTriple]
    rw [h]
    simp

theorem splitAtTripleTick_append :
    ∀ (mid post : List Char), containsTriple (mid ++ [btick, btick]) = false →
      splitAtTripleTick (mid ++ btick :: btick :: btick :: post)
        = some (mid, post) := by
  intro mid
  induction mid with
  | nil =>
    intro post _
    simp [splitAtTripleTick]
  | cons c mid2 ih =>
    intro post h
    have hx : containsTriple (mid2 ++ [btick, btick]) = false := by
      cases hcx : containsTriple (mid2 ++ [btick, btick]) with
      | false => rfl
      | true =>
        rw [List.cons_append] at h
        rw [containsTriple_tail c _ hcx] at h
        cases h
    have hcond : ¬(c = btick
        ∧ (mid2 ++ btick :: btick :: btick :: post).take 2 = [btick, btick]) := by
      rintro ⟨rfl, htake⟩
      cases mid2 with
      | nil => simp [containsTriple, btick] at h
      | cons d mid3 =>
        cases mid3 with
        | nil =>
          simp at htake
          subst htake
          simp [containsTriple, btick] at h
        | cons e mid4 =>
          simp at htake
          obtain ⟨rfl, rfl⟩ := htake
          simp [containsTriple, btick] at h
    rw [List.cons_append, splitAtTripleTick]
    rw [if_neg hcond, ih post hx]

theorem startsSystemFence_append (rest : List Char) :
    startsSystemFence (sysFenceChars ++ rest) = some rest := by
  rw [sysFenceChars]
  simp only [List.cons_append, List.nil_append]
  rw [startsSystemFence, if_pos]
  refine ⟨rfl, rfl, rfl, ?_, ?_, ?_, ?_, ?_, ?_⟩ <;> decide

theorem matchHere_block (mid post : List Char)
    (hmid : containsTriple (mid ++ [btick, btick]) = false) :
    matchHere (sysFenceChars ++ (mid ++ btick :: btick :: btick :: post))
      = some (mid, post) := by
  rw [matchHere, startsSystemFence_append]
  exact splitAtTripleTick_append mid post hmid

theorem matchAt_zero (l : List Char) : matchAt l 0 = matchHere l := by
  rw [matchAt, List.drop_zero]

theorem matchAt_succ_cons (c : Char) (l : List Char) (i : Nat) :
    matchAt (c :: l) (i + 1) = matchAt l i := by
  rw [matchAt, matchAt, List.drop_succ_cons]

theorem searchFence_skip :
    ∀ (pre l body after : List Char),
      (∀ i, i < pre.length → matchAt (pre ++ l) i = none) →
      matchHere l = some (body, after) →
      searchFence (pre ++ l) = some (pre, body, after) := by
  intro pre
  induction pre with
  | nil =>
    intro l body after _ hl
    cases l with
    | nil => simp [matchHere, startsSystemFence] at hl
    | cons c rest =>
      rw [List.nil_append, searchFence, hl]
  | cons c pre2 ih =>
    intro l body after hpre hl
    have h0 : matchHere (c :: (pre2 ++ l)) = none := by
      have := hpre 0 (by simp)
      rw [List.cons_append] at this
      rw [← matchAt_zero]
      exact this
    have hp : ∀ i, i < pre2.length → matchAt (pre2 ++ l) i = none := by
      intro i hi
      have := hpre (i + 1) (by simp; omega)
      rw [List.cons_append, matchAt_succ_cons] at this
      exact this
    rw [List.cons_append, searchFence, h0, ih l body after hp hl]

theorem searchFence_none :
    ∀ l : List Char, (∀ i, i < l.length → matchAt l i = none) →
      searchFence l = none := by
  intro l
  induction l with
  | nil => intro _; rfl
  | cons c rest ih =>
    intro h
    have h0 : matchHere (c :: rest) = none := by
      rw [← matchAt_zero]
      exact h 0 (by simp)
    have hr : ∀ i, i < rest.length → matchAt rest i = none := by
      intro i hi
      rw [← matchAt_succ_cons c]
      exact h (i + 1) (by simp; omega)
    rw [searchFence, h0, ih hr]

/-- C6: if the input decomposes as `pre ++ opening tag ++ mid ++ closing fence
++ post` where the pattern matches at no position inside `pre` (so this is the
first fenced block) and `mid` runs up to the first closing fence, then the
extractor returns the inner text `mid` stripped — the fence delimiters
excluded — and the body with exactly that fenced region removed, whatever
`post` still contains (so with several blocks only the first is extracted and
removed); if the pattern matches nowhere, no override is returned and the body
is unchanged; and on a concrete two-block input only the first block is
extracted and removed. -/
theorem claim_C6_system_override (pre mid post : List Char) (t : String)
    (hpre : ∀ i, i < pre.length →
        matchAt (pre ++ (sysFenceChars ++ (mid ++ btick :: btick :: btick :: post))) i
          = none)
    (hmid : containsTriple (mid ++ [btick, btick]) = false)
    (hnone : ∀ i, i < t.data.length → matchAt t.data i = none) :
    extract_system_prompt_and_body
        (String.mk (pre ++ (sysFenceChars ++ (mid ++ btick :: btick :: btick :: post))))
      = (some (String.mk (pyStripList mid)), String.mk (pre ++ post))
    ∧ extract_system_prompt_and_body t = (none, t)
    ∧ extract_system_prompt_and_body "a```system X``` b ```system Y``` c"
      = (some "X", "a b ```system Y``` c") := by
  refine ⟨?_, ?_, by decide⟩
  · rw [extract_system_prompt_and_body]
    have hd : (String.mk (pre ++ (sysFenceChars
        ++ (mid ++ btick :: btick :: btick :: post)))).data
        = pre ++ (sysFenceChars ++ (mid ++ btick :: btick :: btick :: post)) := rfl
    rw [hd, searchFence_skip pre _ mid post hpre (matchHere_block mid post hmid)]
  · rw [extract_system_prompt_and_body, searchFence_none t.data hnone]

/-- Witness for C6 on a concrete one-block input and a concrete no-block
input. -/
theorem claim_C6_system_override_witness :
    ((∀ i, i < "hi\n".data.length →
        matchAt ("hi\n".data ++ (sysFenceChars
          ++ (" Be terse. ".data ++ btick :: btick :: btick :: " world".data))) i
          = none)
      ∧ containsTriple (" Be terse. ".data ++ [btick, btick]) = false
      ∧ (∀ i, i < "no block here".data.length →
          matchAt "no block here".data i = none))
    ∧ (extract_system_prompt_and_body
          (String.mk ("hi\n".data ++ (sysFenceChars
            ++ (" Be terse. ".data ++ btick :: btick :: btick :: " world".data))))
        = (some (String.mk (pyStripList " Be terse. ".data)),
           String.mk ("hi\n".data ++ " world".data))
      ∧ extract_system_prompt_and_body "no block here" = (none, "no block here")
      ∧ extract_system_prompt_and_body "a```system X``` b ```system Y``` c"
        = (some "X", "a b ```system Y``` c")) :=
  ⟨⟨by decide, by decide, by decide⟩,
   claim_C6_system_override "hi\n".data " Be terse. ".data " world".data
     "no block here" (by decide) (by decide) (by decide)⟩

end P2P
